import Mathlib

/-
Shallow embedding of `examples/wemo_gui.rs` (wemo-rs repository).

The program keeps a shared map `devices : Arc<Mutex<HashMap<String, DeviceInfo>>>`
(line 26).  We model the map as an association list `Registry := List (String × DeviceInfo)`
with `insertEntry` giving `HashMap::insert` semantics (replace the value when the
key is present) and `List.lookup` giving `HashMap::get` semantics.  Network
responses (discovery results, per-device name and state queries, command
outcomes) are inputs to the embedded functions: the Rust code treats them as
opaque, possibly-failing calls into the `wemo` crate.

Each operation of the program is embedded twice, at two levels:
 * its effect on the registry, as a pure function (or a list of `RegOp`
   mutations applied with `applyOps`), translated from the code that runs
   while the mutex is held;
 * its lock/network behaviour, as a trace of `ThreadAct`s (`lock`, `unlock`,
   `net`, `mem`) in the order the source performs them, used for the
   claims about the locking discipline and about the states a concurrent
   reader can observe between critical sections.
-/

/-- Power state reported by a successful state query.  The example code only
observes the `wemo::WemoState` of the external crate through `is_on()`
(lines 68, 111, 232), so the model keeps exactly that observation. -/
inductive WemoState where
  | on
  | off
deriving DecidableEq, Repr

/-- `WemoState::is_on()` as used by the example code. -/
def WemoState.is_on : WemoState → Bool
  | .on => true
  | .off => false

/-- `DeviceInfo` (lines 15–22).  `ip_address : std::net::IpAddr` is opaque
identity data for the program; it is modelled as its textual form. -/
structure DeviceInfo where
  name : String
  ip_address : String
  port : Nat
  serial_number : String
  state : Option WemoState
  status_message : String
deriving DecidableEq, Repr

/-- The device map guarded by the mutex (line 26): `HashMap<String, DeviceInfo>`
modelled as an association list with unique keys. -/
abbrev Registry := List (String × DeviceInfo)

/-- The keys of the registry. -/
def keysOf (m : Registry) : List String := m.map (fun p => p.1)

/-- The status label computed from a state.  This is the match that appears
verbatim at lines 67–70 (discovery seeding) and again at lines 109–114
(refresh completion): `Some s` gives "ON"/"OFF" by `s.is_on()`, `None`
gives "Unknown". -/
def statusOf : Option WemoState → String
  | some s => if s.is_on then "ON" else "OFF"
  | none => "Unknown"

/-- The mutation performed on one entry by the refresh-completion closure
(lines 108–114): overwrite `state` and recompute `status_message`. -/
def setEntryState (d : DeviceInfo) (s : Option WemoState) : DeviceInfo :=
  { d with state := s, status_message := statusOf s }

/-- The refresh-completion update (lines 106–115): `get_mut(&key)` followed by
the state/status overwrite when the key is present; nothing happens when the
key is absent (`if let Some(device) = ... `). -/
def updateState (m : Registry) (k : String) (s : Option WemoState) : Registry :=
  m.map (fun p => if p.1 = k then (p.1, setEntryState p.2 s) else p)

/-- `HashMap::insert` (line 73): replace the value in place when the key is
already present, otherwise add the binding. -/
def insertEntry : Registry → String → DeviceInfo → Registry
  | [], k, v => [(k, v)]
  | p :: rest, k, v => if p.1 = k then (k, v) :: rest else p :: insertEntry rest k v

/-- One iteration's data in the discovery loop (lines 61–84): the `(key, device)`
pair from `search.search(5_000)` together with the responses of the two
per-device network calls made inside the loop, `switch.name()` (line 63) and
`switch.get_state_with_retry(...)` (line 66, `.ok()` makes failure `none`). -/
structure ScanResult where
  key : String
  ip_address : String
  port : Nat
  serial_number : String
  name : String
  queried_state : Option WemoState
deriving DecidableEq, Repr

/-- The `DeviceInfo` built for one discovered device (lines 73–83). -/
def seedEntry (r : ScanResult) : DeviceInfo :=
  { name := r.name
  , ip_address := r.ip_address
  , port := r.port
  , serial_number := r.serial_number
  , state := r.queried_state
  , status_message := statusOf r.queried_state }

/-- The discovery loop body (lines 61–84) applied to the map held under the
second lock: insert the seeded entry for each result in order. -/
def insertAll : List ScanResult → Registry → Registry
  | [], m => m
  | r :: rest, m => insertAll rest (insertEntry m r.key (seedEntry r))

/-- `WemoApp::scan_for_devices` (lines 52–85) as a registry transformer:
`devices.lock().unwrap().clear()` (line 54) empties the map, then the loop
under the second lock (lines 59–84) inserts every seeded result.  The prior
contents `m` are discarded by the clear. -/
def scan_for_devices (m : Registry) (results : List ScanResult) : Registry :=
  insertAll results []

/-- The snapshot the interactive thread takes each tick (line 185):
`self.devices.lock().unwrap()` and a read of the entries. -/
def snapshot (m : Registry) : Registry := m

/-- A single mutation of the device map, as performed under the mutex. -/
inductive RegOp where
  | clear
  | insert (k : String) (v : DeviceInfo)
  | update (k : String) (s : Option WemoState)
deriving Repr

/-- Apply one mutation to the map. -/
def applyOp (m : Registry) : RegOp → Registry
  | .clear => []
  | .insert k v => insertEntry m k v
  | .update k s => updateState m k s

/-- Apply a list of mutations in order. -/
def applyOps (m : Registry) (ops : List RegOp) : Registry := ops.foldl applyOp m

/-- The registry mutations performed by `scan_for_devices` (lines 52–85), in
source order: the clear (line 54), then one insert per discovered device
(line 73). -/
def scanOps (results : List ScanResult) : List RegOp :=
  .clear :: results.map (fun r => .insert r.key (seedEntry r))

/-- The registry mutations performed by one refresh-completion closure
(lines 102–116) for device `k` with query answer `s`. -/
def refreshCompletionOps (k : String) (s : Option WemoState) : List RegOp :=
  [.update k s]

/-- The registry mutations performed by `WemoApp::toggle_device`
(lines 122–139).  The spawned thread builds a `Switch` from the copied
address, issues `turn_on_with_retry`/`turn_off_with_retry` and discards the
result (`let _ = ...`), then sleeps; it never touches `self.devices`, whether
the command succeeds (`cmdSucceeded = true`) or fails. -/
def toggleOps (turn_on : Bool) (cmdSucceeded : Bool) : List RegOp := []

/-- The registry values a concurrent reader can observe around the two
critical sections of `scan_for_devices`: before the clear (line 54), between
the clear and the second lock acquisition (lines 54–59, while the 5-second
network search runs), and after the populating loop ends (line 85).  Readers
are blocked during each critical section itself, so no partially-populated
map is listed. -/
def scanObservableStates (m : Registry) (results : List ScanResult) : List Registry :=
  [m, applyOp m .clear, scan_for_devices m results]

/-- One step of a thread, for the locking-discipline model: acquire the map's
mutex, release it, perform network I/O, or perform in-memory work. -/
inductive ThreadAct where
  | lock
  | unlock
  | net
  | mem
deriving DecidableEq, Repr

/-- `noNetWhileLocked tr d = true` when trace `tr`, started at mutex-hold
depth `d`, performs no network I/O while the mutex is held. -/
def noNetWhileLocked : List ThreadAct → Nat → Bool
  | [], _ => true
  | .lock :: rest, d => noNetWhileLocked rest (d + 1)
  | .unlock :: rest, d => noNetWhileLocked rest (d - 1)
  | .net :: rest, d => decide (d = 0) && noNetWhileLocked rest d
  | .mem :: rest, d => noNetWhileLocked rest d

/-- The discovery loop body (lines 61–83) repeated for `n` devices: at least
one network call per device — `get_state_with_retry` with a 3-second retry
window at line 66 (the `switch.name()` call at line 63 is also made here) —
followed by the in-memory `insert` at line 73. -/
def seedLoopTrace : Nat → List ThreadAct
  | 0 => []
  | n + 1 => .net :: .mem :: seedLoopTrace n

/-- The action trace of `scan_for_devices` (lines 52–85) for `n` discovered
devices: lock and clear (line 54), unlock; the network search with a 5-second
timeout (line 57); lock (line 59); the seeding loop (lines 61–83) run while
that lock is held; unlock at end of scope (line 85). -/
def scanTrace (n : Nat) : List ThreadAct :=
  [.lock, .mem, .unlock, .net, .lock] ++ seedLoopTrace n ++ [.unlock]

/-- The loop of `refresh_states` (lines 94–117) for `n` devices: each
iteration only reads the entry and spawns the per-device thread, in-memory
work. -/
def spawnLoopTrace : Nat → List ThreadAct
  | 0 => []
  | n + 1 => .mem :: spawnLoopTrace n

/-- The action trace of the fan-out thread of `refresh_states` (lines 91–118):
lock (line 92), spawn one thread per known device (lines 94–116), unlock at
end of scope (line 118). -/
def refreshFanoutTrace (n : Nat) : List ThreadAct :=
  .lock :: spawnLoopTrace n ++ [.unlock]

/-- The action trace of one per-device refresh thread (lines 102–116): the
state query with a 3-second retry window (line 103) runs before the lock is
taken (line 106); the update under the lock (lines 107–115) is in-memory
only. -/
def refreshCompletionTrace : List ThreadAct :=
  [.net, .lock, .mem, .unlock]

/-- The action trace of the interactive thread's registry read each tick
(lines 185–197): lock, read the entries, unlock. -/
def snapshotTrace : List ThreadAct :=
  [.lock, .mem, .unlock]

/-- The action trace of the thread spawned by `toggle_device` (lines 126–138):
the on/off command with a 5-second retry window, then a plain sleep; the mutex
is never taken. -/
def toggleTrace : List ThreadAct :=
  [.net, .mem]

/-- The fields of `WemoApp` (lines 25–30) that the claims about the
interactive loop concern: the `scanning` flag and the `refresh_interval` in
seconds.  (`devices` lives behind the shared mutex and is modelled by
`Registry`; `last_refresh` is wall-clock time.) -/
structure AppState where
  scanning : Bool
  refresh_interval : Nat
deriving DecidableEq, Repr

/-- The state built by `WemoApp::new` (lines 43–48): `scanning: true`,
`refresh_interval: 10`. -/
def initApp : AppState :=
  { scanning := true, refresh_interval := 10 }

/-- The events of one pass of `WemoApp::update` (lines 143–202) that touch the
modelled fields. -/
inductive UIEvent where
  | tick
  | scanButtonClick
  | sliderSet (v : Nat)

/-- Whether the "Scan for Devices" button is shown: the `else` branch at
line 162 is rendered only when `self.scanning` is false (lines 157–169). -/
def scanButtonVisible (s : AppState) : Bool := !s.scanning

/-- One pass of `WemoApp::update` (lines 143–202) for a given event:
 * `tick` — the auto-refresh check (lines 145–149) spawns `refresh_states`
   and resets `last_refresh`; neither modelled field changes;
 * `scanButtonClick` — the button exists only in the `else` branch at
   line 162, so a click is possible only when `scanning` is false; it sets
   `scanning` to true (line 163).  No statement in the file ever sets
   `scanning` back to false;
 * `sliderSet v` — the slider at line 176 is bound to `refresh_interval`
   with range `5..=60`; egui sliders clamp the dragged value to their range,
   modelled as `max 5 (min v 60)`. -/
def appStep (s : AppState) : UIEvent → AppState
  | .tick => s
  | .scanButtonClick => if s.scanning then s else { s with scanning := true }
  | .sliderSet v => { s with refresh_interval := max 5 (min v 60) }

/-- The app states reachable from construction through passes of `update`. -/
inductive AppReach : AppState → Prop
  | init : AppReach initApp
  | step {s : AppState} (e : UIEvent) : AppReach s → AppReach (appStep s e)

/-- The registries reachable through the operations the program performs on
the shared map: the initial empty map (line 35), the clear at the start of a
scan (line 54), the populating loop of a scan (lines 59–84, one critical
section), a refresh-completion update (lines 106–115), and a toggle
(lines 122–139, no mutation). -/
inductive Reach : Registry → Prop
  | init : Reach []
  | scanClear {m : Registry} : Reach m → Reach (applyOp m .clear)
  | scanPopulate {m : Registry} (results : List ScanResult) :
      Reach m → Reach (insertAll results m)
  | refreshUpdate {m : Registry} (k : String) (s : Option WemoState) :
      Reach m → Reach (applyOps m (refreshCompletionOps k s))
  | toggle {m : Registry} (turn_on cmdSucceeded : Bool) :
      Reach m → Reach (applyOps m (toggleOps turn_on cmdSucceeded))

/-- Every entry's status label agrees with the pure label function of its
state. -/
def labelConsistent (m : Registry) : Prop :=
  ∀ p ∈ m, p.2.status_message = statusOf p.2.state

/-- The identity (descriptor) fields of an entry: name, IP address, port,
serial number (lines 16–19). -/
def identityFields (d : DeviceInfo) : String × String × Nat × String :=
  (d.name, d.ip_address, d.port, d.serial_number)

/-- A sample key for concrete witnesses and counterexamples. -/
def keyA : String := "uuid:Socket-1_0-221517K0101769"

/-- A sample registry entry (device already discovered, observed on). -/
def dA : DeviceInfo :=
  { name := "Lamp"
  , ip_address := "192.168.1.10"
  , port := 49153
  , serial_number := "221517K0101769"
  , state := some WemoState.on
  , status_message := "ON" }

/-- A sample scan result whose seed query succeeded (device off). -/
def rB : ScanResult :=
  { key := "uuid:Socket-1_0-221517K0101770"
  , ip_address := "192.168.1.11"
  , port := 49154
  , serial_number := "221517K0101770"
  , name := "Heater"
  , queried_state := some WemoState.off }

/-- A sample scan result whose seed query failed (`.ok()` gave `None`). -/
def rC : ScanResult :=
  { key := "uuid:Socket-1_0-221517K0101771"
  , ip_address := "192.168.1.12"
  , port := 49155
  , serial_number := "221517K0101771"
  , name := "Fan"
  , queried_state := none }

theorem lookup_cons_self (k : String) (b : DeviceInfo) (rest : Registry) :
    List.lookup k ((k, b) :: rest) = some b := by
  simp [List.lookup_cons]

theorem lookup_cons_ne (a k : String) (b : DeviceInfo) (rest : Registry)
    (h : a ≠ k) : List.lookup a ((k, b) :: rest) = List.lookup a rest := by
  simp [List.lookup_cons, beq_false_of_ne h]

theorem insertEntry_cons_eq (pk : String) (pv : DeviceInfo) (rest : Registry)
    (k : String) (v : DeviceInfo) (h : pk = k) :
    insertEntry ((pk, pv) :: rest) k v = (k, v) :: rest := by
  rw [insertEntry, if_pos h]

theorem insertEntry_cons_ne (pk : String) (pv : DeviceInfo) (rest : Registry)
    (k : String) (v : DeviceInfo) (h : pk ≠ k) :
    insertEntry ((pk, pv) :: rest) k v = (pk, pv) :: insertEntry rest k v := by
  rw [insertEntry, if_neg h]

theorem updateState_nil (k : String) (s : Option WemoState) :
    updateState [] k s = [] := rfl

theorem updateState_cons_eq (pk : String) (pv : DeviceInfo) (rest : Registry)
    (k : String) (s : Option WemoState) (h : pk = k) :
    updateState ((pk, pv) :: rest) k s =
      (pk, setEntryState pv s) :: updateState rest k s := by
  simp only [updateState, List.map_cons, if_pos h]

theorem updateState_cons_ne (pk : String) (pv : DeviceInfo) (rest : Registry)
    (k : String) (s : Option WemoState) (h : pk ≠ k) :
    updateState ((pk, pv) :: rest) k s = (pk, pv) :: updateState rest k s := by
  simp only [updateState, List.map_cons, if_neg h]

theorem lookup_insertEntry_self (m : Registry) (k : String) (v : DeviceInfo) :
    List.lookup k (insertEntry m k v) = some v := by
  induction m with
  | nil => simp [insertEntry, lookup_cons_self]
  | cons p rest ih =>
    obtain ⟨pk, pv⟩ := p
    by_cases h : pk = k
    · rw [insertEntry_cons_eq _ _ _ _ _ h, lookup_cons_self]
    · rw [insertEntry_cons_ne _ _ _ _ _ h, lookup_cons_ne _ _ _ _ (Ne.symm h), ih]

theorem lookup_insertEntry_ne (m : Registry) (k k2 : String) (v : DeviceInfo)
    (h : k2 ≠ k) : List.lookup k2 (insertEntry m k v) = List.lookup k2 m := by
  induction m with
  | nil => simp [insertEntry, lookup_cons_ne _ _ _ _ h]
  | cons p rest ih =>
    obtain ⟨pk, pv⟩ := p
    by_cases hp : pk = k
    · subst hp
      rw [insertEntry_cons_eq _ _ _ _ _ rfl, lookup_cons_ne _ _ _ _ h,
        lookup_cons_ne _ _ _ _ h]
    · by_cases hp2 : k2 = pk
      · subst hp2
        rw [insertEntry_cons_ne _ _ _ _ _ hp, lookup_cons_self, lookup_cons_self]
      · rw [insertEntry_cons_ne _ _ _ _ _ hp, lookup_cons_ne _ _ _ _ hp2,
          lookup_cons_ne _ _ _ _ hp2, ih]

theorem mem_keysOf_insertEntry (m : Registry) (k k2 : String) (v : DeviceInfo) :
    k2 ∈ keysOf (insertEntry m k v) ↔ k2 = k ∨ k2 ∈ keysOf m := by
  induction m with
  | nil => simp [insertEntry, keysOf]
  | cons p rest ih =>
    obtain ⟨pk, pv⟩ := p
    by_cases hp : pk = k
    · subst hp
      rw [insertEntry_cons_eq _ _ _ _ _ rfl]
      simp only [keysOf, List.map_cons, List.mem_cons]
      tauto
    · rw [insertEntry_cons_ne _ _ _ _ _ hp]
      simp only [keysOf, List.map_cons, List.mem_cons] at *
      tauto

theorem lookup_insertAll_not_mem (results : List ScanResult) (m : Registry)
    (k : String) (h : k ∉ results.map (fun r => r.key)) :
    List.lookup k (insertAll results m) = List.lookup k m := by
  induction results generalizing m with
  | nil => rfl
  | cons r rest ih =>
    simp only [List.map_cons, List.mem_cons, not_or] at h
    rw [insertAll, ih _ h.2, lookup_insertEntry_ne _ _ _ _ h.1]

theorem lookup_insertAll_mem (results : List ScanResult) (m : Registry)
    (r : ScanResult) (hr : r ∈ results)
    (hnd : (results.map (fun r => r.key)).Nodup) :
    List.lookup r.key (insertAll results m) = some (seedEntry r) := by
  induction results generalizing m with
  | nil => cases hr
  | cons r0 rest ih =>
    simp only [List.map_cons, List.nodup_cons] at hnd
    rcases List.mem_cons.mp hr with h | h
    · subst h
      rw [insertAll, lookup_insertAll_not_mem _ _ _ hnd.1, lookup_insertEntry_self]
    · rw [insertAll]
      exact ih _ h hnd.2

theorem mem_keysOf_insertAll (results : List ScanResult) (m : Registry) (k : String) :
    k ∈ keysOf (insertAll results m) ↔
      k ∈ keysOf m ∨ k ∈ results.map (fun r => r.key) := by
  induction results generalizing m with
  | nil => simp [insertAll]
  | cons r rest ih =>
    rw [insertAll, ih]
    rw [mem_keysOf_insertEntry]
    simp only [List.map_cons, List.mem_cons]
    tauto

theorem updateState_not_mem (m : Registry) (k : String) (s : Option WemoState)
    (h : k ∉ keysOf m) : updateState m k s = m := by
  induction m with
  | nil => rfl
  | cons p rest ih =>
    obtain ⟨pk, pv⟩ := p
    simp only [keysOf, List.map_cons, List.mem_cons, not_or] at h
    rw [updateState_cons_ne _ _ _ _ _ (Ne.symm h.1)]
    rw [ih h.2]

theorem keysOf_updateState (m : Registry) (k : String) (s : Option WemoState) :
    keysOf (updateState m k s) = keysOf m := by
  induction m with
  | nil => rfl
  | cons p rest ih =>
    obtain ⟨pk, pv⟩ := p
    by_cases h : pk = k
    · rw [updateState_cons_eq _ _ _ _ _ h]
      simp only [keysOf, List.map_cons] at *
      rw [ih]
    · rw [updateState_cons_ne _ _ _ _ _ h]
      simp only [keysOf, List.map_cons] at *
      rw [ih]

theorem lookup_updateState_self (m : Registry) (k : String) (s : Option WemoState) :
    List.lookup k (updateState m k s) =
      (List.lookup k m).map (fun d => setEntryState d s) := by
  induction m with
  | nil => rfl
  | cons p rest ih =>
    obtain ⟨pk, pv⟩ := p
    by_cases h : pk = k
    · subst h
      rw [updateState_cons_eq _ _ _ _ _ rfl, lookup_cons_self, lookup_cons_self]
      rfl
    · rw [updateState_cons_ne _ _ _ _ _ h, lookup_cons_ne _ _ _ _ (Ne.symm h),
        lookup_cons_ne _ _ _ _ (Ne.symm h), ih]

theorem lookup_updateState_ne (m : Registry) (k k2 : String) (s : Option WemoState)
    (h : k2 ≠ k) :
    List.lookup k2 (updateState m k s) = List.lookup k2 m := by
  induction m with
  | nil => rfl
  | cons p rest ih =>
    obtain ⟨pk, pv⟩ := p
    by_cases hp : pk = k
    · subst hp
      rw [updateState_cons_eq _ _ _ _ _ rfl, lookup_cons_ne _ _ _ _ h,
        lookup_cons_ne _ _ _ _ h, ih]
    · by_cases hp2 : k2 = pk
      · subst hp2
        rw [updateState_cons_ne _ _ _ _ _ hp, lookup_cons_self, lookup_cons_self]
      · rw [updateState_cons_ne _ _ _ _ _ hp, lookup_cons_ne _ _ _ _ hp2,
          lookup_cons_ne _ _ _ _ hp2, ih]

theorem labelConsistent_insertEntry (m : Registry) (k : String) (v : DeviceInfo)
    (hm : labelConsistent m) (hv : v.status_message = statusOf v.state) :
    labelConsistent (insertEntry m k v) := by
  induction m with
  | nil =>
    intro p hp
    rcases List.mem_singleton.mp hp with rfl
    exact hv
  | cons q rest ih =>
    obtain ⟨qk, qv⟩ := q
    have hhead : qv.status_message = statusOf qv.state := hm _ (List.mem_cons_self _ _)
    have htail : labelConsistent rest := fun p hp => hm p (List.mem_cons_of_mem _ hp)
    by_cases h : qk = k
    · rw [insertEntry_cons_eq _ _ _ _ _ h]
      intro p hp
      rcases List.mem_cons.mp hp with rfl | hp2
      · exact hv
      · exact htail p hp2
    · rw [insertEntry_cons_ne _ _ _ _ _ h]
      intro p hp
      rcases List.mem_cons.mp hp with rfl | hp2
      · exact hhead
      · exact ih htail p hp2

theorem labelConsistent_insertAll (results : List ScanResult) (m : Registry)
    (hm : labelConsistent m) : labelConsistent (insertAll results m) := by
  induction results generalizing m with
  | nil => exact hm
  | cons r rest ih =>
    exact ih _ (labelConsistent_insertEntry _ _ _ hm rfl)

theorem labelConsistent_updateState (m : Registry) (k : String)
    (s : Option WemoState) (hm : labelConsistent m) :
    labelConsistent (updateState m k s) := by
  intro p hp
  rw [updateState] at hp
  rcases List.mem_map.mp hp with ⟨q, hq, rfl⟩
  by_cases h : q.1 = k
  · simp only [if_pos h]
    rfl
  · simp only [if_neg h]
    exact hm q hq

theorem updateState_idem (m : Registry) (k : String) (s : Option WemoState) :
    updateState (updateState m k s) k s = updateState m k s := by
  induction m with
  | nil => rfl
  | cons p rest ih =>
    obtain ⟨pk, pv⟩ := p
    by_cases h : pk = k
    · rw [updateState_cons_eq _ _ _ _ _ h, updateState_cons_eq _ _ _ _ _ h, ih]
      rfl
    · rw [updateState_cons_ne _ _ _ _ _ h, updateState_cons_ne _ _ _ _ _ h, ih]

theorem seedLoop_locked (n : Nat) :
    noNetWhileLocked (seedLoopTrace n ++ [ThreadAct.unlock]) 1 = decide (n = 0) := by
  cases n with
  | zero => rfl
  | succ n => simp [seedLoopTrace, noNetWhileLocked]

theorem spawnLoop_locked (n : Nat) :
    noNetWhileLocked (spawnLoopTrace n ++ [ThreadAct.unlock]) 1 = true := by
  induction n with
  | zero => rfl
  | succ n ih => simpa [spawnLoopTrace, noNetWhileLocked] using ih

/-- Claim C1 counterexample: with one device A in the registry before the run
and a scan that discovers the single device B, a reader between the clear
(line 54) and the repopulating critical section (lines 59–84) observes the
empty map, whose key set is neither the pre-run key set {A} nor the result
key set {B}. -/
theorem scan_atomicity_counterexample :
    ([] : Registry) ∈ scanObservableStates [(keyA, dA)] [rB] ∧
    keysOf ([] : Registry) ≠ keysOf [(keyA, dA)] ∧
    keysOf ([] : Registry) ≠ keysOf (scan_for_devices [(keyA, dA)] [rB]) := by
  refine ⟨?_, ?_, ?_⟩
  · rw [scanObservableStates]
    exact List.mem_cons_of_mem _ (List.mem_cons_self _ _)
  · intro h
    cases h
  · intro h
    cases h

/-- Claim C1 (amended): during a discovery run a concurrent reader observes
the complete pre-run map, the empty map (the window between the clear and the
repopulating critical section), or the complete result; and after the run
completes a snapshot returns a registry whose keys are exactly the keys of
the scan's result set. -/
theorem scan_replacement_observables (m : Registry) (results : List ScanResult) :
    (∀ o ∈ scanObservableStates m results,
        keysOf o = keysOf m ∨ keysOf o = ([] : List String) ∨
          keysOf o = keysOf (scan_for_devices m results)) ∧
    (∀ k, k ∈ keysOf (snapshot (scan_for_devices m results)) ↔
        k ∈ results.map (fun r => r.key)) := by
  constructor
  · intro o ho
    rw [scanObservableStates] at ho
    rcases List.mem_cons.mp ho with rfl | ho
    · exact Or.inl rfl
    rcases List.mem_cons.mp ho with rfl | ho
    · exact Or.inr (Or.inl rfl)
    rcases List.mem_singleton.mp ho with rfl
    · exact Or.inr (Or.inr rfl)
  · intro k
    rw [snapshot, scan_for_devices, mem_keysOf_insertAll]
    simp [keysOf]

/-- Claim C1 witness: after the sample scan completes, B's key is in the
snapshot. -/
theorem scan_replacement_observables_witness :
    rB.key ∈ keysOf (snapshot (scan_for_devices [(keyA, dA)] [rB])) :=
  ((scan_replacement_observables [(keyA, dA)] [rB]).2 rB.key).mpr (by decide)

/-- Claim C2 counterexample: the discovery population of one device performs
its seed state query (line 66) while the map's mutex is held (acquired at
line 59), so its trace does network I/O at lock depth one. -/
theorem lock_discipline_counterexample :
    noNetWhileLocked (scanTrace 1) 0 = false := by decide

/-- Claim C2 (amended): the refresh fan-out, every per-device
refresh-completion thread, the interactive snapshot read and the toggle
thread do only in-memory work while the mutex is held; the discovery
population, however, holds the mutex across the per-device seed queries, so
its trace is free of network I/O under the lock exactly when the scan found
zero devices. -/
theorem lock_discipline_amended (n : Nat) :
    noNetWhileLocked (refreshFanoutTrace n) 0 = true ∧
    noNetWhileLocked refreshCompletionTrace 0 = true ∧
    noNetWhileLocked snapshotTrace 0 = true ∧
    noNetWhileLocked toggleTrace 0 = true ∧
    noNetWhileLocked (scanTrace n) 0 = decide (n = 0) := by
  refine ⟨?_, rfl, rfl, rfl, ?_⟩
  · exact spawnLoop_locked n
  · exact seedLoop_locked n

/-- Claim C3: the refresh-completion update for an absent key leaves the map
entirely unchanged (no resurrection), never changes the key set, and for a
present key overwrites exactly that entry's state, recomputing its status
label, while all other keys' entries are untouched. -/
theorem update_state_stale_noop_and_overwrite (m : Registry) (k : String)
    (s : Option WemoState) :
    (k ∉ keysOf m → updateState m k s = m) ∧
    keysOf (updateState m k s) = keysOf m ∧
    List.lookup k (updateState m k s) =
      (List.lookup k m).map (fun d => setEntryState d s) ∧
    (∀ k2, k2 ≠ k → List.lookup k2 (updateState m k s) = List.lookup k2 m) :=
  ⟨updateState_not_mem m k s, keysOf_updateState m k s,
    lookup_updateState_self m k s, fun k2 h => lookup_updateState_ne m k k2 s h⟩

/-- Claim C3 witness: a stale update for an absent key over a one-entry
registry is a no-op. -/
theorem update_state_stale_noop_witness :
    updateState [(keyA, dA)] rB.key none = [(keyA, dA)] :=
  (update_state_stale_noop_and_overwrite [(keyA, dA)] rB.key none).1 (by decide)

/-- Claim C4: the toggle operation performs no registry mutation at all —
its compiled mutation list is empty — so the device map is unchanged whether
the on/off command succeeds or fails. -/
theorem toggle_device_preserves_registry (m : Registry)
    (turn_on cmdSucceeded : Bool) :
    applyOps m (toggleOps turn_on cmdSucceeded) = m ∧
    keysOf (applyOps m (toggleOps turn_on cmdSucceeded)) = keysOf m ∧
    (∀ k, List.lookup k (applyOps m (toggleOps turn_on cmdSucceeded)) =
        List.lookup k m) :=
  ⟨rfl, rfl, fun _ => rfl⟩

/-- Claim C5: in every reachable registry each entry's status label is the
pure label function of its state, and that function maps an absent state to
"Unknown", an on state to "ON" and an off state to "OFF". -/
theorem reachable_registry_labels (m : Registry) (h : Reach m) :
    labelConsistent m ∧
    statusOf none = "Unknown" ∧
    statusOf (some WemoState.on) = "ON" ∧
    statusOf (some WemoState.off) = "OFF" := by
  refine ⟨?_, rfl, rfl, rfl⟩
  induction h with
  | init => intro p hp; cases hp
  | scanClear _ _ => intro p hp; cases hp
  | scanPopulate results _ ih => exact labelConsistent_insertAll results _ ih
  | refreshUpdate k s _ ih => exact labelConsistent_updateState _ k s ih
  | toggle turn_on cmdSucceeded _ ih => exact ih

/-- Claim C5 witness: the registry reached by scanning devices B and C and
then applying one refresh completion for B is label-consistent. -/
theorem reachable_registry_labels_witness :
    labelConsistent
      (applyOps (insertAll [rB, rC] [])
        (refreshCompletionOps rB.key (some WemoState.on))) ∧
    statusOf none = "Unknown" ∧
    statusOf (some WemoState.on) = "ON" ∧
    statusOf (some WemoState.off) = "OFF" :=
  reachable_registry_labels _
    (Reach.refreshUpdate rB.key (some WemoState.on)
      (Reach.scanPopulate [rB, rC] Reach.init))

/-- Claim C6: every discovered device appears in the registry built by the
scan — when its seed query failed, with an absent state and the label
"Unknown" — and a scan returning zero devices yields the empty registry. -/
theorem discovery_seeds_all_devices (m : Registry) (results : List ScanResult)
    (hnd : (results.map (fun r => r.key)).Nodup) :
    (∀ r ∈ results,
        List.lookup r.key (scan_for_devices m results) = some (seedEntry r)) ∧
    (∀ r ∈ results, r.queried_state = none →
        ∃ d, List.lookup r.key (scan_for_devices m results) = some d ∧
          d.state = none ∧ d.status_message = "Unknown") ∧
    (results = [] → scan_for_devices m results = []) := by
  refine ⟨?_, ?_, ?_⟩
  · intro r hr
    exact lookup_insertAll_mem results [] r hr hnd
  · intro r hr hq
    refine ⟨seedEntry r, lookup_insertAll_mem results [] r hr hnd, ?_, ?_⟩
    · simp [seedEntry, hq]
    · simp [seedEntry, hq, statusOf]
  · intro h
    subst h
    rfl

/-- Claim C6 witness: the device C, whose seed query failed, is present in
the scan's registry with its seeded entry. -/
theorem discovery_seeds_all_devices_witness :
    List.lookup rC.key (scan_for_devices [] [rB, rC]) = some (seedEntry rC) :=
  (discovery_seeds_all_devices [] [rB, rC] (by decide)).1 rC (by decide)

/-- Claim C7: applying the refresh-completion update for a present key and a
state twice in sequence yields exactly the map obtained by applying it
once. -/
theorem update_state_idempotent (m : Registry) (k : String)
    (s : Option WemoState) (hk : k ∈ keysOf m) :
    updateState (updateState m k s) k s = updateState m k s :=
  updateState_idem m k s

/-- Claim C7 witness: idempotence at the one-entry sample registry. -/
theorem update_state_idempotent_witness :
    updateState (updateState [(keyA, dA)] keyA (some WemoState.off)) keyA
        (some WemoState.off) =
      updateState [(keyA, dA)] keyA (some WemoState.off) :=
  update_state_idempotent [(keyA, dA)] keyA (some WemoState.off) (by decide)

/-- Claim C8: the refresh-completion update preserves, entry by entry and in
order, every key and every identity field (name, IP address, port, serial
number); only state and status label can differ. -/
theorem refresh_update_preserves_descriptors (m : Registry) (k : String)
    (s : Option WemoState) :
    (updateState m k s).map (fun p => (p.1, identityFields p.2)) =
      m.map (fun p => (p.1, identityFields p.2)) := by
  induction m with
  | nil => rfl
  | cons p rest ih =>
    obtain ⟨pk, pv⟩ := p
    by_cases h : pk = k
    · rw [updateState_cons_eq _ _ _ _ _ h]
      simp only [List.map_cons]
      rw [ih]
      rfl
    · rw [updateState_cons_ne _ _ _ _ _ h]
      simp only [List.map_cons]
      rw [ih]

/-- Claim C9: every reachable application state keeps the refresh interval
between 5 and 60 seconds inclusive: the constructed value 10 is in range and
the slider event clamps to the range. -/
theorem refresh_interval_bounded (s : AppState) (h : AppReach s) :
    5 ≤ s.refresh_interval ∧ s.refresh_interval ≤ 60 := by
  induction h with
  | init => exact ⟨by decide, by decide⟩
  | step e _ ih =>
    cases e with
    | tick => exact ih
    | scanButtonClick =>
      rw [appStep]
      split
      · exact ih
      · exact ih
    | sliderSet v =>
      rw [appStep]
      refine ⟨le_max_left _ _, max_le (by norm_num) (min_le_right _ _)⟩

/-- Claim C9 witness: the bound holds at the constructed state. -/
theorem refresh_interval_bounded_witness :
    5 ≤ initApp.refresh_interval ∧ initApp.refresh_interval ≤ 60 :=
  refresh_interval_bounded initApp AppReach.init

/-- Claim C10: in every reachable application state the scanning flag is
true — no statement of the program resets it — so the branch rendering the
manual "Scan for Devices" button is never reachable after construction. -/
theorem scanning_flag_never_cleared (s : AppState) (h : AppReach s) :
    s.scanning = true ∧ scanButtonVisible s = false := by
  induction h with
  | init => exact ⟨rfl, rfl⟩
  | step e _ ih =>
    cases e with
    | tick => exact ih
    | scanButtonClick =>
      simp [appStep, scanButtonVisible, ih.1]
    | sliderSet v =>
      simp [appStep, scanButtonVisible, ih.1]

/-- Claim C10 witness: the flag is set and the button hidden at the
constructed state. -/
theorem scanning_flag_never_cleared_witness :
    initApp.scanning = true ∧ scanButtonVisible initApp = false :=
  scanning_flag_never_cleared initApp AppReach.init
